/-
Verification development for the sqlbind library (src/sqlbind/__init__.py).

The library builds parameterized SQL fragments: an accumulator object stores
bound parameter values and renders template strings whose positional holes
(written as an opening brace immediately followed by a closing brace, as in
Python str.format) become driver-specific placeholder tokens.  This file is a
shallow embedding of the relevant classes and functions, followed by theorems
settling the frozen claims about them.

Modelling conventions:
- Python strings are Lean String values; Python str.format with positional
  holes is pyFormat; str.join is strJoin.
- Python runtime values flowing through the binding layer are the inductive
  Val.  The UNDEFINED sentinel is Val.undef, Python None is Val.none.  A float
  is carried by its Python repr string, because nothing in the library ever
  computes with a float: it is only stored or turned into a string.
- Identity tests (value is UNDEFINED, value is None) are the Bool functions
  Val.isUndef and Val.isNone, mirroring that the source compares by identity,
  not by equality.
- The accumulator classes QMarkQueryParams, NumericQueryParams,
  FormatQueryParams, NamedQueryParams, PyFormatQueryParams share one state
  record QueryParams with a style tag selecting the concrete compile method;
  positional styles use the field named list, named styles the field named
  dict (insertion-ordered, as Python dicts are).
- Code that raises (the sqlite inline-escape) returns Except String.
-/
import Mathlib

namespace Sqlbind

/-- Decimal digit characters of a natural number, with explicit fuel so that
applications reduce definitionally; agrees with Python str(n) for n < fuel. -/
def natStrGo : Nat → Nat → List Char
  | 0, _ => []
  | fuel + 1, n =>
    if n < 10 then [Nat.digitChar n]
    else natStrGo fuel (n / 10) ++ [Nat.digitChar (n % 10)]

/-- Python decimal rendering str(n) of a natural number. -/
def natStr (n : Nat) : String := String.mk (natStrGo (n + 1) n)

/-- Python decimal rendering str(n) of an int (possibly negative). -/
def intStr (n : Int) : String :=
  if n < 0 then ("-") ++ natStr n.natAbs else natStr n.toNat

/-- Python str.join: join a list of strings with a separator. -/
def strJoin (sep : String) : List String → String
  | [] => ""
  | [x] => x
  | x :: y :: xs => x ++ sep ++ strJoin sep (y :: xs)

/-- Core of pyFormat, on character lists.  An opening brace immediately
followed by a closing brace is a positional hole and is replaced by the next
argument (whose characters are spliced verbatim, never re-scanned, as in
Python str.format).  Other characters are copied.  If the arguments run out,
remaining text is copied verbatim (Python would raise IndexError there; no
modelled call site under-supplies arguments for the holes its template has). -/
def pyFormatAux : List Char → List String → List Char
  | [], _ => []
  | [c], _ => [c]
  | c :: d :: cs, args =>
    match args with
    | a :: args2 =>
      if c == '\x7b' && d == '\x7d' then a.data ++ pyFormatAux cs args2
      else c :: pyFormatAux (d :: cs) args
    | [] => c :: pyFormatAux (d :: cs) []

/-- Python template.format(*args) restricted to the bare positional holes that
are the only format feature the source uses. -/
def pyFormat (template : String) (args : List String) : String :=
  String.mk (pyFormatAux template.data args)

/-- Python str.replace with a single-character pattern (the only use in the
source is doubling single quotes in sqlite_escape). -/
def replaceChar (s : String) (c : Char) (r : String) : String :=
  String.mk (s.data.flatMap (fun ch => if ch == c then r.data else [ch]))

/-- Python runtime values that flow through the binding layer.  Val.undef is
the process-wide UNDEFINED sentinel (a bare object()), Val.none is Python
None.  List parameters carry their elements; no claim involves a list nested
inside a list value, and scalar claims never depend on deeper nesting. -/
inductive Val where
  | undef
  | none
  | bool (b : Bool)
  | int (n : Int)
  | float (repr : String)
  | str (s : String)
  | list (vs : List Val)

/-- Identity test value is UNDEFINED from the source. -/
def Val.isUndef : Val → Bool
  | .undef => true
  | _ => false

/-- Identity test value is None from the source. -/
def Val.isNone : Val → Bool
  | .none => true
  | _ => false

/-- Python truthiness of a value, used by filter(None, ...), if cond:, and the
not_empty helper.  The float case follows the carried repr string: the zero
floats repr as 0.0 or -0.0.  UNDEFINED is a bare object and hence truthy. -/
def pyTruthy : Val → Bool
  | .undef => true
  | .none => false
  | .bool b => b
  | .int n => n != 0
  | .float r => !(r == "0.0" || r == "-0.0")
  | .str s => s != ""
  | .list vs => !vs.isEmpty

mutual

/-- Python repr of a value, needed only to build the sqlite_escape error
message text.  CPython appends a memory address to the repr of a bare object;
the address is elided here since no claim depends on it. -/
def pyRepr : Val → String
  | .undef => "<object object>"
  | .none => "None"
  | .bool true => "True"
  | .bool false => "False"
  | .int n => intStr n
  | .float r => r
  | .str s => ("\x27") ++ s ++ "\x27"
  | .list vs => ("[") ++ strJoin (", ") (pyReprList vs) ++ "]"

/-- Reprs of the elements of a list value. -/
def pyReprList : List Val → List String
  | [] => []
  | v :: vs => pyRepr v :: pyReprList vs

end

/-- Python str() of a value, as used by f-string interpolation: identical to
repr except on strings, which print without quotes. -/
def pyStr : Val → String
  | .str s => s
  | v => pyRepr v

/-- The EMPTY fragment: module constant EMPTY = Expr(empty string). -/
def EMPTY : String := ""

/-- Expr.invert from the source: NOT on a non-empty fragment prefixes it with
the NOT keyword, NOT on the empty fragment stays EMPTY. -/
def exprInvert (e : String) : String :=
  if e != "" then ("NOT ") ++ e else EMPTY

/-- join_fragments from the source: drop falsy fragments, return EMPTY when
none survive, a single survivor unchanged, otherwise the separator-join,
wrapped through the wrap template when one is given. -/
def join_fragments (sep : String) (fragments : List String) (wrap : Option String) : String :=
  match fragments.filter (fun f => f != "") with
  | [] => EMPTY
  | [f] => f
  | fs =>
    match wrap with
    | some w => pyFormat w [strJoin sep fs]
    | Option.none => strJoin sep fs

/-- AND from the source: join with the AND separator, wrapping in parentheses. -/
def AND (fragments : List String) : String :=
  join_fragments (" AND ") fragments (some ("(\x7b\x7d)"))

/-- OR from the source: join with the OR separator, wrapping in parentheses. -/
def OR (fragments : List String) : String :=
  join_fragments (" OR ") fragments (some ("(\x7b\x7d)"))

/-- Placeholder styles of the five concrete accumulator classes. -/
inductive Style where
  | qmark
  | numeric
  | format
  | named
  | pyformat
deriving DecidableEq

/-- Dialect classes BaseDialect and SQLiteDialect, passed to the accumulator
factories as strategy objects. -/
inductive DialectT where
  | base
  | sqlite
deriving DecidableEq

/-- Shared state of every accumulator: the dialect reference, the internal
insertion counter QueryParams.count (the Python attribute named count with a
leading underscore), and the storage: ListQueryParams subclasses Python list
(field list), DictQueryParams subclasses Python dict (field dict, an
insertion-ordered association list, as Python dicts preserve insertion
order).  The style tag selects which concrete compile method runs, standing
for the dynamic dispatch of the Python subclasses. -/
@[ext]
structure QueryParams where
  style : Style
  dialect : DialectT
  list : List Val
  dict : List (String × Val)
  count : Nat

/-- Fresh accumulator as built by the Dialect factory functions. -/
def freshQ (style : Style) (dialect : DialectT) : QueryParams :=
  { style := style, dialect := dialect, list := [], dict := [], count := 0 }

/-- ListQueryParams.add: remember the current counter as the start index, bump
the counter by the batch size, extend the stored list, return the start. -/
def ListQueryParams.add (q : QueryParams) (params : List Val) : Nat × QueryParams :=
  (q.count, { q with count := q.count + params.length, list := q.list ++ params })

/-- Python dict update with one key: overwrite in place when the key exists,
append otherwise. -/
def dictUpdate (d : List (String × Val)) (k : String) (v : Val) : List (String × Val) :=
  if d.any (fun kv => kv.1 == k) then
    d.map (fun kv => if kv.1 == k then (k, v) else kv)
  else d ++ [(k, v)]

/-- DictQueryParams.add: generate one key p followed by the running index per
value, bump the counter, dict-update the storage with the new pairs, return
the generated names. -/
def DictQueryParams.add (q : QueryParams) (params : List Val) : List String × QueryParams :=
  let start := q.count
  let names := (List.range params.length).map (fun i => ("p") ++ natStr (start + i))
  (names,
    { q with count := q.count + params.length,
             dict := (names.zip params).foldl (fun d kv => dictUpdate d kv.1 kv.2) q.dict })

/-- QMarkQueryParams.compile: add the params, render every hole as a question
mark. -/
def QMarkQueryParams.compile (q : QueryParams) (expr : String) (params : List Val) :
    String × QueryParams :=
  let r := ListQueryParams.add q params
  (pyFormat expr (List.replicate params.length ("?")), r.2)

/-- NumericQueryParams.compile: add the params, render holes as colon-prefixed
1-based running indices. -/
def NumericQueryParams.compile (q : QueryParams) (expr : String) (params : List Val) :
    String × QueryParams :=
  let r := ListQueryParams.add q params
  (pyFormat expr ((List.range params.length).map (fun i => (":") ++ natStr (r.1 + 1 + i))), r.2)

/-- FormatQueryParams.compile: add the params, render every hole as percent-s. -/
def FormatQueryParams.compile (q : QueryParams) (expr : String) (params : List Val) :
    String × QueryParams :=
  let r := ListQueryParams.add q params
  (pyFormat expr (List.replicate params.length ("%s")), r.2)

/-- NamedQueryParams.compile: add the params into the dict, render holes as
colon-prefixed generated names. -/
def NamedQueryParams.compile (q : QueryParams) (expr : String) (params : List Val) :
    String × QueryParams :=
  let r := DictQueryParams.add q params
  (pyFormat expr (r.1.map (fun n => (":") ++ n)), r.2)

/-- PyFormatQueryParams.compile: add the params into the dict, render holes in
the pyformat percent-parenthesized style. -/
def PyFormatQueryParams.compile (q : QueryParams) (expr : String) (params : List Val) :
    String × QueryParams :=
  let r := DictQueryParams.add q params
  (pyFormat expr (r.1.map (fun n => ("%(") ++ n ++ ")s")), r.2)

/-- QueryParams.compile: dynamic dispatch to the concrete subclass. -/
def QueryParams.compile (q : QueryParams) (expr : String) (params : List Val) :
    String × QueryParams :=
  match q.style with
  | .qmark => QMarkQueryParams.compile q expr params
  | .numeric => NumericQueryParams.compile q expr params
  | .format => FormatQueryParams.compile q expr params
  | .named => NamedQueryParams.compile q expr params
  | .pyformat => PyFormatQueryParams.compile q expr params

/-- QueryParams call (the Python method with double underscores): return EMPTY
untouched when any parameter is the UNDEFINED sentinel, otherwise compile. -/
def QueryParams.call (q : QueryParams) (expr : String) (params : List Val) :
    String × QueryParams :=
  if params.any Val.isUndef then (EMPTY, q) else QueryParams.compile q expr params

/-- QueryParams truediv (the slash bind operator): compile a bare hole with the
single value.  Note it performs no UNDEFINED check before compiling. -/
def QueryParams.truediv (q : QueryParams) (value : Val) : String × QueryParams :=
  QueryParams.compile q ("\x7b\x7d") [value]

/-- QueryParams.cond: compile when the condition is truthy, EMPTY otherwise.
The condition is taken already reduced to its truthiness. -/
def QueryParams.cond (q : QueryParams) (c : Bool) (expr : String) (params : List Val) :
    String × QueryParams :=
  if c then QueryParams.compile q expr params else (EMPTY, q)

/-- QueryParams.not_none: compile with the single param when it is not None. -/
def QueryParams.not_none (q : QueryParams) (expr : String) (param : Val) :
    String × QueryParams :=
  if !param.isNone then QueryParams.compile q expr [param] else (EMPTY, q)

/-- QueryParams.not_empty: compile with the single param when it is truthy. -/
def QueryParams.not_empty (q : QueryParams) (expr : String) (param : Val) :
    String × QueryParams :=
  if pyTruthy param then QueryParams.compile q expr [param] else (EMPTY, q)

/-- Shared body of QueryParams.eq and QueryParams.neq, which differ only in
the two literal operator texts: walk the field/value pairs in insertion
order, skip pairs whose value is the UNDEFINED sentinel, compile the
null-test template (with no params) for None values and the comparison
template (binding the value) otherwise, collecting the fragments. -/
def eqFold (nullTxt opTxt : String) (q : QueryParams) :
    List (String × Val) → List String × QueryParams
  | [] => ([], q)
  | (field, value) :: rest =>
    if value.isUndef then eqFold nullTxt opTxt q rest
    else
      let r :=
        if value.isNone then QueryParams.compile q (field ++ nullTxt) []
        else QueryParams.compile q (field ++ opTxt) [value]
      let r2 := eqFold nullTxt opTxt r.2 rest
      (r.1 :: r2.1, r2.2)

/-- QueryParams.eq on the final keyword-argument pairs in insertion order (a
positional field/value pair is appended by the source after the keyword ones,
so callers of the model place it last). -/
def QueryParams.eq (q : QueryParams) (pairs : List (String × Val)) : String × QueryParams :=
  let r := eqFold (" IS NULL") (" = \x7b\x7d") q pairs
  (AND r.1, r.2)

/-- QueryParams.neq, the opposite of eq. -/
def QueryParams.neq (q : QueryParams) (pairs : List (String × Val)) : String × QueryParams :=
  let r := eqFold (" IS NOT NULL") (" != \x7b\x7d") q pairs
  (AND r.1, r.2)

/-- Fragment collection of QueryParams.assign: one assignment template per
pair, pairs with an UNDEFINED value dropped. -/
def assignFold (q : QueryParams) : List (String × Val) → List String × QueryParams
  | [] => ([], q)
  | (field, value) :: rest =>
    if value.isUndef then assignFold q rest
    else
      let r := QueryParams.compile q (field ++ " = \x7b\x7d") [value]
      let r2 := assignFold r.2 rest
      (r.1 :: r2.1, r2.2)

/-- QueryParams.assign: comma-join of the assignment fragments, no wrap. -/
def QueryParams.assign (q : QueryParams) (pairs : List (String × Val)) : String × QueryParams :=
  let r := assignFold q pairs
  (join_fragments (", ") r.1 Option.none, r.2)

/-- Helper _in_range from the source: compile each bound that is not the
UNDEFINED sentinel (left first, then right against the updated state), give
the empty string for a suppressed bound, and AND-join the two fragments. -/
def _in_range (q : QueryParams) (field lop : String) (left : Val) (rop : String) (right : Val) :
    String × QueryParams :=
  let r1 :=
    if !left.isUndef then QueryParams.compile q (field ++ " " ++ lop ++ " \x7b\x7d") [left]
    else (EMPTY, q)
  let r2 :=
    if !right.isUndef then QueryParams.compile r1.2 (field ++ " " ++ rop ++ " \x7b\x7d") [right]
    else (EMPTY, r1.2)
  (AND [r1.1, r2.1], r2.2)

/-- QueryParams.in_range: half-open range, lower bound inclusive. -/
def QueryParams.in_range (q : QueryParams) (field : String) (left right : Val) :
    String × QueryParams :=
  _in_range q field (">=") left ("<") right

/-- QueryParams.in_crange: closed range. -/
def QueryParams.in_crange (q : QueryParams) (field : String) (left right : Val) :
    String × QueryParams :=
  _in_range q field (">=") left ("<=") right

/-- FALSE literal of each dialect class. -/
def DialectT.FALSE : DialectT → String
  | .base => "FALSE"
  | .sqlite => "0"

/-- sqlite_escape: exact type dispatch as in the source, where type(val) is
compared by identity, so a bool (whose type is bool, a subtype of int) falls
through to the error branch.  Strings are single-quoted with embedded single
quotes doubled; int and float go through str(); every other value raises
ValueError with the message interpolating the value itself. -/
def sqlite_escape (val : Val) : Except String String :=
  match val with
  | .str s => .ok (("\x27") ++ replaceChar s '\x27' ("\x27\x27") ++ "\x27")
  | .int n => .ok (intStr n)
  | .float r => .ok r
  | v => .error (("Invalid type: ") ++ pyStr v)

/-- sqlite_value_list: comma-join of the escaped values; the first failing
escape propagates (the join consumes the mapped values left to right). -/
def sqlite_value_list (values : List Val) : Except String String :=
  match values.mapM sqlite_escape with
  | .ok ss => .ok (strJoin (",") ss)
  | .error e => .error e

/-- BaseDialect.IN: bind the whole collection as one parameter.  The bound
value is the list itself, so the UNDEFINED check of the call sees a list
(never the sentinel) and always proceeds. -/
def BaseDialect.IN (q : QueryParams) (field : String) (values : List Val) :
    String × QueryParams :=
  QueryParams.call q (field ++ " IN \x7b\x7d") [.list values]

/-- SQLiteDialect.IN: above ten values, escape every value inline and bind
nothing (propagating any escape failure); at or below ten, render one hole
per value and bind them all through the call path. -/
def SQLiteDialect.IN (q : QueryParams) (field : String) (values : List Val) :
    Except String (String × QueryParams) :=
  if values.length > 10 then
    match sqlite_value_list values with
    | .ok s => .ok (field ++ " IN (" ++ s ++ ")", q)
    | .error e => .error e
  else
    let qmarks := strJoin (",") (List.replicate values.length ("\x7b\x7d"))
    .ok (QueryParams.call q (field ++ " IN (" ++ qmarks ++ ")") values)

/-- Dispatch to the dialect class IN renderer. -/
def DialectT.IN (d : DialectT) (q : QueryParams) (field : String) (values : List Val) :
    Except String (String × QueryParams) :=
  match d with
  | .base => .ok (BaseDialect.IN q field values)
  | .sqlite => SQLiteDialect.IN q field values

/-- QueryParams.IN: None or the UNDEFINED sentinel give EMPTY; an empty list
(falsy) gives the dialect FALSE literal; a non-empty list delegates to the
dialect IN renderer.  The argument is annotated Optional[List] in the source;
other value shapes are outside the modelled domain. -/
def QueryParams.IN (q : QueryParams) (field : String) (values : Val) :
    Except String (String × QueryParams) :=
  match values with
  | .none => .ok (EMPTY, q)
  | .undef => .ok (EMPTY, q)
  | .list [] => .ok (DialectT.FALSE q.dialect, q)
  | .list (v :: vs) => DialectT.IN q.dialect q field (v :: vs)
  | _ => .error ("IN argument outside the annotated Optional[List] domain")

/-- Dict lookup row[f] used by QueryParams.VALUES; the source would raise
KeyError on a missing key, which no modelled call does, so the sentinel is
returned there only to totalize. -/
def pyLookup (row : List (String × Val)) (k : String) : Val :=
  match row.find? (fun kv => kv.1 == k) with
  | Option.none => .undef
  | some kv => kv.2

/-- QueryParams.VALUES on explicit rows (the keyword-argument form passes the
single keyword row).  Field names come from the first row; every cell is
collected row-major and compiled through one template with one parenthesized
hole group per row.  Note there is no UNDEFINED short-circuit here. -/
def QueryParams.VALUES (q : QueryParams) (data : List (List (String × Val))) :
    String × QueryParams :=
  let names := (data.headD []).map (fun kv => kv.1)
  let params := data.flatMap (fun row => names.map (pyLookup row))
  let marks := pyFormat ("(\x7b\x7d)") [strJoin (", ") (List.replicate names.length ("\x7b\x7d"))]
  QueryParams.compile q
    (("(") ++ strJoin (", ") names ++ ") VALUES " ++ strJoin (", ") (List.replicate data.length marks))
    params

/-- QueryParams.LIMIT: a call with the LIMIT template (UNDEFINED-checked). -/
def QueryParams.LIMIT (q : QueryParams) (value : Val) : String × QueryParams :=
  QueryParams.call q ("LIMIT \x7b\x7d") [value]

/-- QueryParams.OFFSET: a call with the OFFSET template (UNDEFINED-checked). -/
def QueryParams.OFFSET (q : QueryParams) (value : Val) : String × QueryParams :=
  QueryParams.call q ("OFFSET \x7b\x7d") [value]

/-- One accumulator operation with its arguments, for statements quantifying
over whole operation sequences. -/
inductive Op where
  | call (expr : String) (params : List Val)
  | truediv (value : Val)
  | cond (c : Bool) (expr : String) (params : List Val)
  | not_none (expr : String) (param : Val)
  | not_empty (expr : String) (param : Val)
  | eq (pairs : List (String × Val))
  | neq (pairs : List (String × Val))
  | assign (pairs : List (String × Val))
  | in_range (field : String) (left right : Val)
  | in_crange (field : String) (left right : Val)
  | IN (field : String) (values : Val)
  | VALUES (data : List (List (String × Val)))
  | LIMIT (value : Val)
  | OFFSET (value : Val)

/-- Run one operation against the accumulator.  Only IN can raise. -/
def runOp (q : QueryParams) : Op → Except String (String × QueryParams)
  | .call expr params => .ok (QueryParams.call q expr params)
  | .truediv value => .ok (QueryParams.truediv q value)
  | .cond c expr params => .ok (QueryParams.cond q c expr params)
  | .not_none expr param => .ok (QueryParams.not_none q expr param)
  | .not_empty expr param => .ok (QueryParams.not_empty q expr param)
  | .eq pairs => .ok (QueryParams.eq q pairs)
  | .neq pairs => .ok (QueryParams.neq q pairs)
  | .assign pairs => .ok (QueryParams.assign q pairs)
  | .in_range field left right => .ok (QueryParams.in_range q field left right)
  | .in_crange field left right => .ok (QueryParams.in_crange q field left right)
  | .IN field values => QueryParams.IN q field values
  | .VALUES data => .ok (QueryParams.VALUES q data)
  | .LIMIT value => .ok (QueryParams.LIMIT q value)
  | .OFFSET value => .ok (QueryParams.OFFSET q value)

/-- Run an operation sequence, collecting the rendered fragments; a raised
error aborts the run, as a Python exception would. -/
def runOps (q : QueryParams) : List Op → Except String (List String × QueryParams)
  | [] => .ok ([], q)
  | op :: rest =>
    match runOp q op with
    | .error e => .error e
    | .ok (s, q1) =>
      match runOps q1 rest with
      | .error e => .error e
      | .ok (ss, q2) => .ok (s :: ss, q2)

/-- Direct successful bind calls (template, params), run through compile: the
successful, non-suppressed calls the accounting claims quantify over. -/
def runCompiles (q : QueryParams) : List (String × List Val) → List String × QueryParams
  | [] => ([], q)
  | (e, ps) :: rest =>
    let r := QueryParams.compile q e ps
    let r2 := runCompiles r.2 rest
    (r.1 :: r2.1, r2.2)

/-- Modelled from the spec, for comparison with the code: the token the spec
predicts for the hole holding the value with global insertion index i, per
style (a fixed question mark, a colon with the 1-based index, a fixed
percent-s, or the synthetic key p followed by the index in colon or pyformat
dress). -/
def specTokenOf (st : Style) (i : Nat) : String :=
  match st with
  | .qmark => "?"
  | .numeric => (":") ++ natStr (i + 1)
  | .format => "%s"
  | .named => (":p") ++ natStr i
  | .pyformat => ("%(p") ++ natStr i ++ ")s"

/-- Synthetic key generated for the value with global insertion index i. -/
def pKey (i : Nat) : String := ("p") ++ natStr i

/-- Tokens of one bind call of k values starting at counter value c. -/
def specCallTokens (st : Style) (c k : Nat) : List String :=
  (List.range k).map (fun j => specTokenOf st (c + j))

/-- Modelled from the spec: the fragments a call sequence must render, each
template formatted with the tokens of its own contiguous counter block. -/
def specFrags (st : Style) (c : Nat) : List (String × List Val) → List String
  | [] => []
  | (e, ps) :: rest => pyFormat e (specCallTokens st c ps.length) :: specFrags st (c + ps.length) rest

/-- Invariant of the dict storage: every stored key is the synthetic key of
some index below the counter. -/
def goodDict (q : QueryParams) : Prop :=
  ∀ kv ∈ q.dict, ∃ i, i < q.count ∧ kv.1 = pKey i

/-- Total number of values contributed by a call sequence (the sum of the
per-call value counts). -/
def totalLen (calls : List (String × List Val)) : Nat :=
  (calls.map (fun cl => cl.2.length)).sum

/-- Whether a style stores into the dict (DictQueryParams) rather than the
list (ListQueryParams). -/
def usesDict : Style → Bool
  | .named => true
  | .pyformat => true
  | _ => false

/-- Decimal reading, the left inverse used to prove the printer injective. -/
def unDec (cs : List Char) : Nat := cs.foldl (fun a c => a * 10 + (c.toNat - 48)) 0

/-- Condition that a string contains no opening brace, so that pyFormat copies
it verbatim; every field name in the claims satisfies it. -/
def braceFree (s : String) : Prop := ∀ c ∈ s.data, (c == '\x7b') = false

instance braceFree.dec (s : String) : Decidable (braceFree s) := by
  unfold braceFree
  infer_instance

/-- Prefix test on character lists, for stating facts about error messages. -/
def listHasPrefix : List Char → List Char → Bool
  | [], _ => true
  | _ :: _, [] => false
  | p :: ps, c :: cs => p == c && listHasPrefix ps cs

/-- Substring test on character lists, for stating facts about error
messages. -/
def listHasSub (pat s : List Char) : Bool :=
  match s with
  | [] => pat.isEmpty
  | _ :: cs => listHasPrefix pat s || listHasSub pat cs

example : natStr 230 = "230" := rfl
example : natStr 0 = "0" := rfl
example : intStr (-14) = "-14" := rfl
example : strJoin (",") [("a"), ("b"), ("c")] = "a,b,c" := rfl
example : pyFormat ("a = \x7b\x7d AND b = \x7b\x7d") [("?"), (":p1")] = "a = ? AND b = :p1" := rfl
example : replaceChar ("a\x27b") '\x27' ("\x27\x27") = "a\x27\x27b" := rfl
example :
    QueryParams.truediv (freshQ .qmark .base) (.int 10) =
      ("?", { style := .qmark, dialect := .base, list := [.int 10], dict := [], count := 1 }) :=
  rfl
example :
    QueryParams.call (freshQ .named .base) ("f = \x7b\x7d") [.int 7] =
      ("f = :p0", { style := .named, dialect := .base, list := [],
                    dict := [(("p0"), .int 7)], count := 1 }) :=
  rfl

/- Sanity checks reproducing source doctests. -/

example :
    (QueryParams.eq (freshQ .qmark .base) [(("name"), .str ("bob")), (("age"), .int 30)]).1 =
      "(name = ? AND age = ?)" :=
  rfl

example :
    QueryParams.in_range (freshQ .qmark .base) ("date")
        (.str ("2023-01-01")) (.str ("2023-02-01")) =
      ("(date >= ? AND date < ?)",
        { style := .qmark, dialect := .base,
          list := [.str ("2023-01-01"), .str ("2023-02-01")], dict := [], count := 2 }) :=
  rfl

example :
    QueryParams.IN (freshQ .qmark .base) ("field") (.list [.int 10, .int 20]) =
      .ok (("field IN ?"),
        { style := .qmark, dialect := .base,
          list := [.list [.int 10, .int 20]], dict := [], count := 1 }) :=
  rfl

example :
    QueryParams.IN (freshQ .qmark .sqlite) ("field") (.list [.int 10, .int 20]) =
      .ok (("field IN (?,?)"),
        { style := .qmark, dialect := .sqlite,
          list := [.int 10, .int 20], dict := [], count := 2 }) :=
  rfl

example :
    QueryParams.IN (freshQ .qmark .sqlite) ("field")
        (.list ((List.range 11).map (fun i => .int i))) =
      .ok (("field IN (0,1,2,3,4,5,6,7,8,9,10)"), freshQ .qmark .sqlite) :=
  rfl

example :
    QueryParams.VALUES (freshQ .qmark .base)
        [[(("name"), .str ("bob")), (("age"), .int 30)],
         [(("name"), .str ("fred")), (("age"), .int 20)]] =
      ("(name, age) VALUES (?, ?), (?, ?)",
        { style := .qmark, dialect := .base,
          list := [.str ("bob"), .int 30, .str ("fred"), .int 20], dict := [], count := 4 }) :=
  rfl

example :
    (QueryParams.call (freshQ .numeric .base) ("a = \x7b\x7d AND b = \x7b\x7d")
        [.int 1, .int 2]).1 = "a = :1 AND b = :2" :=
  rfl

example :
    (QueryParams.truediv (freshQ .pyformat .base) (.int 20)).1 = "%(p0)s" :=
  rfl

example : sqlite_escape (.str ("it\x27s")) = .ok ("\x27it\x27\x27s\x27") := rfl

/- Helper lemmas about the decimal printer. -/

theorem digitChar_toNat : ∀ d : Nat, d < 10 → (Nat.digitChar d).toNat - 48 = d := by decide

theorem unDec_shift (cs : List Char) (a : Nat) :
    cs.foldl (fun a c => a * 10 + (c.toNat - 48)) a = a * 10 ^ cs.length + unDec cs := by
  induction cs generalizing a with
  | nil => simp [unDec]
  | cons c cs ih =>
    simp only [List.foldl, unDec, pow_succ, List.length_cons] at *
    rw [ih, ih (0 * 10 + (c.toNat - 48))]
    ring

theorem unDec_natStrGo (fuel n : Nat) (h : n < fuel) : unDec (natStrGo fuel n) = n := by
  induction fuel generalizing n with
  | zero => omega
  | succ fuel ih =>
    rw [natStrGo]
    by_cases h10 : n < 10
    · simp [if_pos h10, unDec, digitChar_toNat n h10]
    · have hdiv : n / 10 < n := Nat.div_lt_self (by omega) (by omega)
      have hq := ih (n / 10) (by omega)
      simp only [if_neg h10, unDec, List.foldl_append, List.foldl] at *
      rw [hq, digitChar_toNat (n % 10) (Nat.mod_lt _ (by omega))]
      omega

theorem natStr_inj : Function.Injective natStr := by
  intro m n h
  have hdata : natStrGo (m + 1) m = natStrGo (n + 1) n := congrArg String.data h
  have := congrArg unDec hdata
  rwa [unDec_natStrGo _ _ (by omega), unDec_natStrGo _ _ (by omega)] at this

theorem pKey_inj : Function.Injective pKey := by
  intro m n h
  have hdata : ('p' :: (natStr m).data) = ('p' :: (natStr n).data) := by
    have := congrArg String.data h
    simpa [pKey, String.data_append] using this
  exact natStr_inj (String.ext (List.cons_injective hdata))

/- Helper lemmas about pyFormat. -/

theorem pyFormatAux_nil : ∀ cs : List Char, pyFormatAux cs [] = cs
  | [] => rfl
  | [_] => rfl
  | _ :: d :: cs => by simp [pyFormatAux, pyFormatAux_nil (d :: cs)]

theorem pyFormatAux_cons_ne (c : Char) (h : (c == '\x7b') = false) :
    ∀ (cs : List Char) (args : List String),
      pyFormatAux (c :: cs) args = c :: pyFormatAux cs args := by
  intro cs args
  match cs, args with
  | [], [] => rfl
  | [], _ :: _ => rfl
  | d :: cs2, [] => rfl
  | d :: cs2, a :: args2 => simp [pyFormatAux, h]

theorem pyFormatAux_append_left (cs1 : List Char) (h : ∀ c ∈ cs1, (c == '\x7b') = false) :
    ∀ (cs2 : List Char) (args : List String),
      pyFormatAux (cs1 ++ cs2) args = cs1 ++ pyFormatAux cs2 args := by
  induction cs1 with
  | nil => intro cs2 args; rfl
  | cons c cs ih =>
    intro cs2 args
    rw [List.cons_append, pyFormatAux_cons_ne c (h c (by simp)),
      ih (fun x hx => h x (by simp [hx]))]
    rfl

theorem pyFormatAux_hole (cs : List Char) (a : String) (args : List String) :
    pyFormatAux ('\x7b' :: '\x7d' :: cs) (a :: args) = a.data ++ pyFormatAux cs args := by
  simp [pyFormatAux]

theorem pyFormatAux_ne_nil :
    ∀ (cs : List Char) (args : List String),
      (∃ c0 ∈ cs, (c0 == '\x7b') = false ∧ (c0 == '\x7d') = false) →
      pyFormatAux cs args ≠ []
  | [], _, h => by simp at h
  | [c], args, _ => by simp [pyFormatAux]
  | c :: d :: cs, [], _ => by simp [pyFormatAux]
  | c :: d :: cs, a :: args, h => by
    obtain ⟨c0, hc0, hb, hb2⟩ := h
    simp only [List.mem_cons] at hc0
    by_cases hpair : (c == '\x7b' && d == '\x7d') = true
    · have hcc : c = '\x7b' := by
        have := (Bool.and_eq_true _ _).mp hpair
        simpa using this.1
      have hdd : d = '\x7d' := by
        have := (Bool.and_eq_true _ _).mp hpair
        simpa using this.2
      have hmem : c0 ∈ cs := by
        rcases hc0 with h1 | h1 | h1
        · subst h1; rw [hcc] at hb; simp at hb
        · subst h1; rw [hdd] at hb2; simp at hb2
        · exact h1
      have hrec := pyFormatAux_ne_nil cs args ⟨c0, hmem, hb, hb2⟩
      subst hcc
      subst hdd
      rw [pyFormatAux_hole]
      intro hcontra
      exact hrec (List.append_eq_nil.mp hcontra).2
    · have heq : pyFormatAux (c :: d :: cs) (a :: args) = c :: pyFormatAux (d :: cs) (a :: args) := by
        simp only [pyFormatAux]
        rw [if_neg (by simpa using hpair)]
      simp [heq]

theorem pyFormat_wrap_paren (s : String) :
    pyFormat ("(\x7b\x7d)") [s] = ("(") ++ s ++ ")" := by
  apply String.ext
  show pyFormatAux ['(', '\x7b', '\x7d', ')'] [s] = _
  rw [pyFormatAux_cons_ne '(' (by decide), pyFormatAux_hole]
  simp [pyFormatAux, String.data_append]

theorem pyFormat_nil_args (t : String) : pyFormat t [] = t :=
  String.ext (pyFormatAux_nil t.data)

theorem string_ne_empty_of_data (s : String) (h : s.data ≠ []) : s ≠ "" := by
  intro e
  rw [e] at h
  exact h rfl

theorem append_ne_empty_right (a b : String) (h : b.data ≠ []) : a ++ b ≠ "" := by
  apply string_ne_empty_of_data
  rw [String.data_append]
  simp [h]

/- Helper lemmas about join_fragments. -/

theorem join_fragments_empty (sep : String) (fs : List String) (w : Option String)
    (h : fs.filter (fun f => f != "") = []) : join_fragments sep fs w = EMPTY := by
  unfold join_fragments
  rw [h]

theorem join_fragments_single (sep : String) (fs : List String) (w : Option String) (x : String)
    (h : fs.filter (fun f => f != "") = [x]) : join_fragments sep fs w = x := by
  unfold join_fragments
  rw [h]

theorem join_fragments_multi (sep : String) (fs : List String) (w : String)
    (x y : String) (rest : List String)
    (h : fs.filter (fun f => f != "") = x :: y :: rest) :
    join_fragments sep fs (some w) = pyFormat w [strJoin sep (x :: y :: rest)] := by
  unfold join_fragments
  rw [h]

theorem join_fragments_multi_nowrap (sep : String) (fs : List String)
    (x y : String) (rest : List String)
    (h : fs.filter (fun f => f != "") = x :: y :: rest) :
    join_fragments sep fs Option.none = strJoin sep (x :: y :: rest) := by
  unfold join_fragments
  rw [h]

theorem AND_multi (fs : List String) (x y : String) (rest : List String)
    (h : fs.filter (fun f => f != "") = x :: y :: rest) :
    AND fs = ("(") ++ strJoin (" AND ") (x :: y :: rest) ++ ")" := by
  rw [AND, join_fragments_multi _ _ _ _ _ _ h, pyFormat_wrap_paren]

theorem OR_multi (fs : List String) (x y : String) (rest : List String)
    (h : fs.filter (fun f => f != "") = x :: y :: rest) :
    OR fs = ("(") ++ strJoin (" OR ") (x :: y :: rest) ++ ")" := by
  rw [OR, join_fragments_multi _ _ _ _ _ _ h, pyFormat_wrap_paren]

/-- C6: fragment joining first drops all falsy (empty) fragments; with zero
survivors it returns the EMPTY fragment, with exactly one survivor that
fragment unchanged and unparenthesized, and with two or more survivors the
separator-join of all survivors wrapped in parentheses for AND and OR;
logical NOT on EMPTY returns EMPTY and on a non-empty fragment prefixes it
with the NOT keyword. -/
theorem C6_fragment_joining :
    (∀ (sep : String) (fs : List String) (w : Option String),
        fs.filter (fun f => f != "") = [] → join_fragments sep fs w = EMPTY)
    ∧ (∀ (sep : String) (fs : List String) (w : Option String) (x : String),
        fs.filter (fun f => f != "") = [x] → join_fragments sep fs w = x)
    ∧ (∀ (fs : List String) (x y : String) (rest : List String),
        fs.filter (fun f => f != "") = x :: y :: rest →
          AND fs = ("(") ++ strJoin (" AND ") (x :: y :: rest) ++ ")"
          ∧ OR fs = ("(") ++ strJoin (" OR ") (x :: y :: rest) ++ ")")
    ∧ exprInvert EMPTY = EMPTY
    ∧ (∀ e : String, e ≠ "" → exprInvert e = ("NOT ") ++ e) := by
  refine ⟨join_fragments_empty, join_fragments_single, ?_, rfl, ?_⟩
  · intro fs x y rest h
    exact ⟨AND_multi fs x y rest h, OR_multi fs x y rest h⟩
  · intro e he
    simp [exprInvert, he]

/-- Witness for C6 at concrete fragments. -/
theorem C6_fragment_joining_witness :
    AND [EMPTY, ("a = 1")] = "a = 1"
    ∧ OR [("a = 1"), EMPTY, ("b = 2")] = "(a = 1 OR b = 2)"
    ∧ AND [EMPTY, EMPTY] = EMPTY
    ∧ exprInvert ("enabled") = "NOT enabled" := by
  refine ⟨?_, ?_, ?_, ?_⟩
  · exact C6_fragment_joining.2.1 (" AND ") [EMPTY, ("a = 1")] (some ("(\x7b\x7d)")) ("a = 1") rfl
  · exact ((C6_fragment_joining.2.2.1 [("a = 1"), EMPTY, ("b = 2")] ("a = 1") ("b = 2") []
      rfl).2).trans rfl
  · exact C6_fragment_joining.1 (" AND ") [EMPTY, EMPTY] (some ("(\x7b\x7d)")) rfl
  · exact (C6_fragment_joining.2.2.2.2 ("enabled") (by decide)).trans rfl

/-- C5: for every accumulator, IN of None and IN of the UNDEFINED sentinel
return the EMPTY fragment binding nothing; IN of an empty collection returns
the dialect FALSE literal (the word FALSE for the base dialect, the digit
zero for SQLite) binding nothing; IN of a non-empty collection delegates to
the dialect IN renderer. -/
theorem C5_IN_none_undefined_false :
    (∀ (q : QueryParams) (field : String),
        QueryParams.IN q field .none = .ok (EMPTY, q))
    ∧ (∀ (q : QueryParams) (field : String),
        QueryParams.IN q field .undef = .ok (EMPTY, q))
    ∧ (∀ (q : QueryParams) (field : String),
        QueryParams.IN q field (.list []) = .ok (DialectT.FALSE q.dialect, q))
    ∧ DialectT.FALSE .base = "FALSE"
    ∧ DialectT.FALSE .sqlite = "0"
    ∧ (∀ (q : QueryParams) (field : String) (v : Val) (vs : List Val),
        QueryParams.IN q field (.list (v :: vs)) = DialectT.IN q.dialect q field (v :: vs)) :=
  ⟨fun _ _ => rfl, fun _ _ => rfl, fun _ _ => rfl, rfl, rfl, fun _ _ _ _ => rfl⟩

/- Helper lemmas for the sqlite IN placeholder path. -/

theorem pyFormatAux_qmarks :
    ∀ (n : Nat) (cs : List Char) (tok : String) (args : List String),
      pyFormatAux ((strJoin (",") (List.replicate n ("\x7b\x7d"))).data ++ cs)
          (List.replicate n tok ++ args)
        = (strJoin (",") (List.replicate n tok)).data ++ pyFormatAux cs args
  | 0, cs, tok, args => by simp [strJoin]
  | 1, cs, tok, args => by
    have h1 : (strJoin (",") (List.replicate 1 ("\x7b\x7d"))).data = ['\x7b', '\x7d'] := rfl
    have h2 : List.replicate 1 tok ++ args = tok :: args := rfl
    rw [h1, h2]
    show pyFormatAux ('\x7b' :: '\x7d' :: cs) (tok :: args) = _
    rw [pyFormatAux_hole]
    rfl
  | n + 2, cs, tok, args => by
    have hrep : ∀ (s : String), List.replicate (n + 2) s = s :: s :: List.replicate n s := by
      intro s
      rfl
    have hjoin : ∀ (s : String),
        strJoin (",") (List.replicate (n + 2) s) =
          s ++ "," ++ strJoin (",") (List.replicate (n + 1) s) := by
      intro s
      rw [hrep]
      rfl
    rw [hjoin, hjoin]
    have hdata : (("\x7b\x7d") ++ "," ++ strJoin (",") (List.replicate (n + 1) ("\x7b\x7d"))).data
        = '\x7b' :: '\x7d' :: ',' ::
            (strJoin (",") (List.replicate (n + 1) ("\x7b\x7d"))).data := by
      simp [String.data_append]
    rw [hdata]
    have hargs : List.replicate (n + 2) tok ++ args = tok :: (List.replicate (n + 1) tok ++ args) := by
      rw [hrep]
      rfl
    rw [hargs]
    simp only [List.cons_append]
    rw [pyFormatAux_hole, pyFormatAux_cons_ne ',' (by decide)]
    rw [pyFormatAux_qmarks (n + 1) cs tok args]
    simp [String.data_append]

theorem nobrace_append (a b : String) (ha : braceFree a) (hb : braceFree b) :
    ∀ c ∈ (a ++ b).data, (c == '\x7b') = false := by
  intro c hc
  rw [String.data_append] at hc
  rcases List.mem_append.mp hc with h | h
  · exact ha c h
  · exact hb c h

/-- Rendering of the sqlite placeholder-path template under the qmark style:
every hole becomes a question mark, the field text is copied verbatim, and
the parameters are appended to the stored list. -/
theorem compile_qmark_inparen (q : QueryParams) (field : String) (vs : List Val)
    (hst : q.style = .qmark) (hf : braceFree field) :
    QueryParams.compile q
        (field ++ " IN (" ++ strJoin (",") (List.replicate vs.length ("\x7b\x7d")) ++ ")") vs =
      (field ++ " IN (" ++ strJoin (",") (List.replicate vs.length ("?")) ++ ")",
       { q with count := q.count + vs.length, list := q.list ++ vs }) := by
  have hpre : ∀ c ∈ (field ++ " IN (").data, (c == '\x7b') = false :=
    nobrace_append field (" IN (") hf (by decide)
  obtain ⟨st, d, l, dc, c⟩ := q
  dsimp only at hst
  subst hst
  simp only [QueryParams.compile, QMarkQueryParams.compile, ListQueryParams.add, Prod.mk.injEq]
  refine ⟨?_, by trivial⟩
  apply String.ext
  simp only [pyFormat]
  have hsplit :
      ((field ++ " IN (" ++ strJoin (",") (List.replicate vs.length ("\x7b\x7d"))) ++ ")").data
        = (field ++ " IN (").data ++
            ((strJoin (",") (List.replicate vs.length ("\x7b\x7d"))).data ++ (")").data) := by
    simp [String.data_append]
  rw [hsplit, pyFormatAux_append_left _ hpre]
  have hargs : List.replicate vs.length ("?") = List.replicate vs.length ("?") ++ [] := by
    simp
  rw [hargs, pyFormatAux_qmarks vs.length ((")").data) ("?") [], pyFormatAux_nil]
  simp [String.data_append]

/-- Below-threshold branch of SQLiteDialect.IN. -/
theorem sqliteIN_le10 (q : QueryParams) (field : String) (vs : List Val)
    (h : vs.length ≤ 10) :
    SQLiteDialect.IN q field vs =
      .ok (QueryParams.call q
        (field ++ " IN (" ++ strJoin (",") (List.replicate vs.length ("\x7b\x7d")) ++ ")") vs) := by
  unfold SQLiteDialect.IN
  rw [if_neg (by omega)]

/-- Above-threshold branch of SQLiteDialect.IN when escaping succeeds. -/
theorem sqliteIN_gt10 (q : QueryParams) (field : String) (vs : List Val) (s : String)
    (h : 10 < vs.length) (hesc : sqlite_value_list vs = .ok s) :
    SQLiteDialect.IN q field vs = .ok (field ++ " IN (" ++ s ++ ")", q) := by
  unfold SQLiteDialect.IN
  rw [if_pos (by omega), hesc]

theorem call_no_undef (q : QueryParams) (expr : String) (params : List Val)
    (h : params.any Val.isUndef = false) :
    QueryParams.call q expr params = QueryParams.compile q expr params := by
  simp [QueryParams.call, h]

theorem IN_cons_dialect (q : QueryParams) (field : String) (v : Val) (vs : List Val)
    (hd : q.dialect = .sqlite) :
    QueryParams.IN q field (.list (v :: vs)) = SQLiteDialect.IN q field (v :: vs) := by
  show DialectT.IN q.dialect q field (v :: vs) = _
  rw [hd]
  rfl

/-- C3: under the SQLite dialect (qmark placeholders, as its factory builds),
IN on a non-empty values list of at most 10 entries renders one question-mark
placeholder per value and appends every value to the accumulator storage; on
a list of more than 10 entries it renders the escaped values inline into the
text and binds nothing, leaving the accumulator untouched. -/
theorem C3_sqlite_IN_threshold :
    (∀ (q : QueryParams) (field : String) (v : Val) (vs : List Val),
        q.style = .qmark → q.dialect = .sqlite →
        (v :: vs).length ≤ 10 → (v :: vs).any Val.isUndef = false → braceFree field →
        QueryParams.IN q field (.list (v :: vs)) =
          .ok (field ++ " IN (" ++ strJoin (",") (List.replicate (v :: vs).length ("?")) ++ ")",
               { q with count := q.count + (v :: vs).length, list := q.list ++ (v :: vs) }))
    ∧ (∀ (q : QueryParams) (field : String) (vs : List Val) (s : String),
        q.dialect = .sqlite → 10 < vs.length → sqlite_value_list vs = .ok s →
        QueryParams.IN q field (.list vs) = .ok (field ++ " IN (" ++ s ++ ")", q)) := by
  constructor
  · intro q field v vs hst hd hlen hundef hf
    rw [IN_cons_dialect q field v vs hd, sqliteIN_le10 _ _ _ hlen,
      call_no_undef _ _ _ hundef, compile_qmark_inparen _ _ _ hst hf]
  · intro q field vs s hd hlen hesc
    match vs, hlen with
    | v :: vs2, hlen =>
      rw [IN_cons_dialect q field v vs2 hd, sqliteIN_gt10 _ _ _ _ hlen hesc]

/-- Witness for C3: two bound values render two placeholders and are stored;
eleven values are inlined as literals with nothing stored. -/
theorem C3_sqlite_IN_threshold_witness :
    QueryParams.IN (freshQ .qmark .sqlite) ("field") (.list [.int 10, .int 20]) =
      .ok (("field IN (?,?)"),
        { style := .qmark, dialect := .sqlite, list := [.int 10, .int 20], dict := [],
          count := 2 })
    ∧ QueryParams.IN (freshQ .qmark .sqlite) ("field")
        (.list ((List.range 11).map (fun i => .int i))) =
      .ok (("field IN (0,1,2,3,4,5,6,7,8,9,10)"), freshQ .qmark .sqlite) := by
  constructor
  · have h := C3_sqlite_IN_threshold.1 (freshQ .qmark .sqlite) ("field") (.int 10) [.int 20]
      rfl rfl (by decide) rfl (by decide)
    exact h.trans (by rfl)
  · have h := C3_sqlite_IN_threshold.2 (freshQ .qmark .sqlite) ("field")
      ((List.range 11).map (fun i => .int i)) ("0,1,2,3,4,5,6,7,8,9,10") rfl (by decide) rfl
    exact h.trans (by rfl)

/-- C9: on the placeholder path (at most 10 values) the SQLite IN renderer
runs no type check: it succeeds for values of arbitrary shape, and when none
is the UNDEFINED sentinel it binds them all; the inline-escape type error can
only arise when the value count exceeds the threshold of 10. -/
theorem C9_placeholder_path_no_typecheck :
    (∀ (q : QueryParams) (field : String) (vs : List Val),
        vs.length ≤ 10 → ∃ r, SQLiteDialect.IN q field vs = .ok r)
    ∧ (∀ (q : QueryParams) (field : String) (v : Val) (vs : List Val),
        q.style = .qmark → (v :: vs).length ≤ 10 → (v :: vs).any Val.isUndef = false →
        braceFree field →
        SQLiteDialect.IN q field (v :: vs) =
          .ok (field ++ " IN (" ++ strJoin (",") (List.replicate (v :: vs).length ("?")) ++ ")",
               { q with count := q.count + (v :: vs).length, list := q.list ++ (v :: vs) }))
    ∧ (∀ (q : QueryParams) (field : String) (vs : List Val) (e : String),
        q.dialect = .sqlite →
        QueryParams.IN q field (.list vs) = .error e → 10 < vs.length) := by
  refine ⟨?_, ?_, ?_⟩
  · intro q field vs h
    rw [sqliteIN_le10 _ _ _ h]
    exact ⟨_, rfl⟩
  · intro q field v vs hst hlen hundef hf
    rw [sqliteIN_le10 _ _ _ hlen, call_no_undef _ _ _ hundef,
      compile_qmark_inparen _ _ _ hst hf]
  · intro q field vs e hd herr
    by_contra hgt
    push_neg at hgt
    cases vs with
    | nil => simp [QueryParams.IN] at herr
    | cons v vs2 =>
      rw [IN_cons_dialect q field v vs2 hd, sqliteIN_le10 _ _ _ hgt] at herr
      simp at herr

/-- Witness for C9: a bool and a None bind through placeholders with no type
check below the threshold, and a reported inline-escape error implies the
count exceeded the threshold. -/
theorem C9_placeholder_path_no_typecheck_witness :
    SQLiteDialect.IN (freshQ .qmark .sqlite) ("f") [.bool true, .none] =
      .ok (("f IN (?,?)"),
        { style := .qmark, dialect := .sqlite, list := [.bool true, .none], dict := [],
          count := 2 })
    ∧ (∃ r, SQLiteDialect.IN (freshQ .qmark .sqlite) ("f")
        [.bool true, .none, .list [], .undef, .str ("x")] = .ok r)
    ∧ 10 < ((List.range 11).map (fun _ : Nat => Val.bool true)).length := by
  refine ⟨?_, ?_, ?_⟩
  · have h := C9_placeholder_path_no_typecheck.2.1 (freshQ .qmark .sqlite) ("f")
      (.bool true) [.none] rfl (by decide) rfl (by decide)
    exact h.trans (by rfl)
  · exact C9_placeholder_path_no_typecheck.1 (freshQ .qmark .sqlite) ("f")
      [.bool true, .none, .list [], .undef, .str ("x")] (by decide)
  · exact C9_placeholder_path_no_typecheck.2.2 (freshQ .qmark .sqlite) ("f")
      ((List.range 11).map (fun _ : Nat => Val.bool true)) ("Invalid type: True") rfl
      (by rfl)

/-- Counterexample for C4 as stated: the error raised for a bool is a
ValueError whose message interpolates the offending value (True), and the
name of the offending type (bool) occurs nowhere in the message, so the error
does not name the offending type. -/
theorem C4_cex_error_cites_value_not_type :
    sqlite_escape (.bool true) = .error ("Invalid type: True")
    ∧ listHasSub (("bool").data) (("Invalid type: True").data) = false
    ∧ listHasSub (("True").data) (("Invalid type: True").data) = true :=
  ⟨rfl, rfl, rfl⟩

/-- C4 as amended: the SQLite inline-escape renders a str wrapped in single
quotes with embedded single quotes doubled, renders int and float via direct
string conversion, and for a value of any other type (including bool, whose
exact type is not int) returns the ValueError whose message interpolates the
offending value; the error propagates immediately through the IN rendering of
an above-threshold list, aborting it without being swallowed. -/
theorem C4_amended_sqlite_escape :
    (∀ s : String,
        sqlite_escape (.str s) = .ok (("\x27") ++ replaceChar s '\x27' ("\x27\x27") ++ "\x27"))
    ∧ (∀ n : Int, sqlite_escape (.int n) = .ok (intStr n))
    ∧ (∀ r : String, sqlite_escape (.float r) = .ok r)
    ∧ (∀ b : Bool, sqlite_escape (.bool b) = .error (("Invalid type: ") ++ pyStr (.bool b)))
    ∧ sqlite_escape .none = .error ("Invalid type: None")
    ∧ (∀ vs : List Val, sqlite_escape (.list vs) = .error (("Invalid type: ") ++ pyStr (.list vs)))
    ∧ (∀ (q : QueryParams) (field : String) (vs : List Val) (e : String),
        q.dialect = .sqlite → 10 < vs.length → sqlite_value_list vs = .error e →
        QueryParams.IN q field (.list vs) = .error e) := by
  refine ⟨fun _ => rfl, fun _ => rfl, fun _ => rfl, fun b => by cases b <;> rfl, rfl,
    fun _ => rfl, ?_⟩
  intro q field vs e hd hlen hesc
  match vs, hlen with
  | v :: vs2, hlen =>
    rw [IN_cons_dialect q field v vs2 hd]
    unfold SQLiteDialect.IN
    rw [if_pos (by omega), hesc]

/-- Witness for C4 as amended: a bool inside an 11-value list aborts the
whole IN rendering with the interpolated-value message. -/
theorem C4_amended_sqlite_escape_witness :
    QueryParams.IN (freshQ .qmark .sqlite) ("f")
        (.list (.bool true :: (List.range 10).map (fun i => .int i))) =
      .error ("Invalid type: True") := by
  exact C4_amended_sqlite_escape.2.2.2.2.2.2 (freshQ .qmark .sqlite) ("f")
    (.bool true :: (List.range 10).map (fun i => .int i)) ("Invalid type: True")
    rfl (by decide) (by rfl)

/- Helper lemmas for the UNDEFINED suppression claims. -/

theorem eqFold_all_undef (nt ot : String) (q : QueryParams) :
    ∀ pairs : List (String × Val),
      (∀ p ∈ pairs, p.2.isUndef = true) → eqFold nt ot q pairs = ([], q)
  | [], _ => rfl
  | (f, v) :: rest, h => by
    have hv : v.isUndef = true := h (f, v) (by simp)
    unfold eqFold
    rw [if_pos hv]
    exact eqFold_all_undef nt ot q rest (fun p hp => h p (by simp [hp]))

theorem assignFold_all_undef (q : QueryParams) :
    ∀ pairs : List (String × Val),
      (∀ p ∈ pairs, p.2.isUndef = true) → assignFold q pairs = ([], q)
  | [], _ => rfl
  | (f, v) :: rest, h => by
    have hv : v.isUndef = true := h (f, v) (by simp)
    unfold assignFold
    rw [if_pos hv]
    exact assignFold_all_undef q rest (fun p hp => h p (by simp [hp]))

/-- Counterexample for C1 as stated: binding the UNDEFINED sentinel through
the slash operator does not return EMPTY and does not leave the accumulator
unchanged; it renders a placeholder, stores the sentinel, and consumes one
counter slot. -/
theorem C1_cex_truediv_binds_undefined :
    QueryParams.truediv (freshQ .qmark .base) .undef =
      ("?", { style := .qmark, dialect := .base, list := [.undef], dict := [], count := 1 })
    ∧ ("?" : String) ≠ EMPTY
    ∧ (QueryParams.truediv (freshQ .qmark .base) .undef).2.count ≠ (freshQ .qmark .base).count :=
  ⟨rfl, by decide, by decide⟩

/-- C1 as amended: the template call short-circuits to EMPTY with the
accumulator untouched when any parameter is the UNDEFINED sentinel; IN does
so when its values argument is the sentinel; in_range and in_crange when both
bounds are; eq and assign when every pair value is.  The slash bind operator,
however, performs no UNDEFINED check at all and compiles the sentinel like
any other value (and cond, not_none, not_empty test only their own
condition, which the sentinel passes). -/
theorem C1_amended_undefined_shortcircuit :
    (∀ (q : QueryParams) (expr : String) (params : List Val),
        params.any Val.isUndef = true → QueryParams.call q expr params = (EMPTY, q))
    ∧ (∀ (q : QueryParams) (field : String),
        QueryParams.IN q field .undef = .ok (EMPTY, q))
    ∧ (∀ (q : QueryParams) (field : String),
        QueryParams.in_range q field .undef .undef = (EMPTY, q)
        ∧ QueryParams.in_crange q field .undef .undef = (EMPTY, q))
    ∧ (∀ (q : QueryParams) (pairs : List (String × Val)),
        (∀ p ∈ pairs, p.2.isUndef = true) →
        QueryParams.eq q pairs = (EMPTY, q) ∧ QueryParams.assign q pairs = (EMPTY, q))
    ∧ (∀ (q : QueryParams) (v : Val),
        QueryParams.truediv q v = QueryParams.compile q ("\x7b\x7d") [v])
    ∧ (∀ (q : QueryParams) (expr : String) (params : List Val),
        QueryParams.cond q true expr params = QueryParams.compile q expr params) := by
  refine ⟨?_, fun _ _ => rfl, fun _ _ => ⟨rfl, rfl⟩, ?_, fun _ _ => rfl, fun _ _ _ => rfl⟩
  · intro q expr params h
    simp [QueryParams.call, h]
  · intro q pairs h
    constructor
    · show (AND (eqFold _ _ q pairs).1, (eqFold _ _ q pairs).2) = (EMPTY, q)
      rw [eqFold_all_undef _ _ q pairs h]
      rfl
    · show (join_fragments _ (assignFold q pairs).1 _, (assignFold q pairs).2) = (EMPTY, q)
      rw [assignFold_all_undef q pairs h]
      rfl

/-- Witness for C1 as amended, at concrete suppressed inputs. -/
theorem C1_amended_undefined_shortcircuit_witness :
    QueryParams.call (freshQ .qmark .base) ("f = \x7b\x7d") [.undef] =
      (EMPTY, freshQ .qmark .base)
    ∧ QueryParams.eq (freshQ .qmark .base) [(("a"), .undef), (("b"), .undef)] =
      (EMPTY, freshQ .qmark .base)
    ∧ QueryParams.truediv (freshQ .qmark .base) .undef =
      QueryParams.compile (freshQ .qmark .base) ("\x7b\x7d") [.undef] := by
  refine ⟨?_, ?_, ?_⟩
  · exact C1_amended_undefined_shortcircuit.1 (freshQ .qmark .base) ("f = \x7b\x7d") [.undef] rfl
  · exact (C1_amended_undefined_shortcircuit.2.2.2.1 (freshQ .qmark .base)
      [(("a"), .undef), (("b"), .undef)] (by decide)).1
  · have h := C1_amended_undefined_shortcircuit.2.2.2.2.1 (freshQ .qmark .base) .undef
    exact h

/- Helper lemmas for the eq and in_range claims. -/

theorem compile_nil (q : QueryParams) (t : String) : QueryParams.compile q t [] = (t, q) := by
  obtain ⟨st, d, l, dc, c⟩ := q
  cases st <;>
    simp [QueryParams.compile, QMarkQueryParams.compile, NumericQueryParams.compile,
      FormatQueryParams.compile, NamedQueryParams.compile, PyFormatQueryParams.compile,
      ListQueryParams.add, DictQueryParams.add, pyFormat_nil_args]

theorem compile_fst_pyFormat (q : QueryParams) (e : String) (ps : List Val) :
    ∃ toks, (QueryParams.compile q e ps).1 = pyFormat e toks := by
  obtain ⟨st, d, l, dc, c⟩ := q
  cases st <;> exact ⟨_, rfl⟩

theorem compile_fst_ne_empty (q : QueryParams) (e : String) (ps : List Val)
    (h : ∃ c0 ∈ e.data, (c0 == '\x7b') = false ∧ (c0 == '\x7d') = false) :
    (QueryParams.compile q e ps).1 ≠ "" := by
  obtain ⟨toks, heq⟩ := compile_fst_pyFormat q e ps
  rw [heq]
  apply string_ne_empty_of_data
  exact pyFormatAux_ne_nil e.data toks h

theorem tmpl_robust (f suffix : String) (c0 : Char) (h0 : c0 ∈ suffix.data)
    (h1 : (c0 == '\x7b') = false) (h2 : (c0 == '\x7d') = false) :
    ∃ c ∈ (f ++ suffix).data, (c == '\x7b') = false ∧ (c == '\x7d') = false :=
  ⟨c0, by rw [String.data_append]; exact List.mem_append.mpr (Or.inr h0), h1, h2⟩

theorem isUndef_undef : Val.isUndef .undef = true := rfl

theorem AND_single (x : String) (h : x ≠ "") : AND [x] = x :=
  join_fragments_single _ _ _ x (by simp [h])

theorem AND_pair_left (x : String) (h : x ≠ "") : AND [x, EMPTY] = x :=
  join_fragments_single _ _ _ x (by simp [EMPTY, h])

theorem AND_pair_right (y : String) (h : y ≠ "") : AND [EMPTY, y] = y :=
  join_fragments_single _ _ _ y (by simp [EMPTY, h])

theorem AND_pair_both (x y : String) (hx : x ≠ "") (hy : y ≠ "") :
    AND [x, y] = ("(") ++ x ++ " AND " ++ y ++ ")" := by
  rw [AND_multi [x, y] x y [] (by simp [hx, hy])]
  apply String.ext
  simp [String.data_append, strJoin]

theorem eq_single_none (q : QueryParams) (f : String) :
    QueryParams.eq q [(f, .none)] = (f ++ " IS NULL", q) := by
  show (AND ((QueryParams.compile q (f ++ " IS NULL") []).1 :: []),
        (QueryParams.compile q (f ++ " IS NULL") []).2) = _
  rw [compile_nil q (f ++ " IS NULL")]
  show (AND [f ++ " IS NULL"], q) = _
  rw [AND_single _ (append_ne_empty_right f (" IS NULL") (by decide))]

theorem eq_single_val (q : QueryParams) (f : String) (v : Val)
    (hu : v.isUndef = false) (hn : v.isNone = false) :
    QueryParams.eq q [(f, v)] = QueryParams.compile q (f ++ " = \x7b\x7d") [v] := by
  have hne : (QueryParams.compile q (f ++ " = \x7b\x7d") [v]).1 ≠ "" :=
    compile_fst_ne_empty _ _ _
      (tmpl_robust f (" = \x7b\x7d") '=' (by decide) (by decide) (by decide))
  show (AND (eqFold (" IS NULL") (" = \x7b\x7d") q [(f, v)]).1,
        (eqFold (" IS NULL") (" = \x7b\x7d") q [(f, v)]).2) = _
  simp only [eqFold, hu, hn, Bool.false_eq_true, if_false]
  rw [AND_single _ hne]

theorem eqFold_filter (nt ot : String) :
    ∀ (pairs : List (String × Val)) (q : QueryParams),
      eqFold nt ot q pairs = eqFold nt ot q (pairs.filter (fun p => !p.2.isUndef))
  | [], _ => rfl
  | (f, v) :: rest, q => by
    by_cases hv : v.isUndef = true
    · simp only [List.filter_cons, hv, Bool.not_true, Bool.false_eq_true, if_false]
      simp only [eqFold, hv, if_true]
      exact eqFold_filter nt ot rest q
    · have hv2 : v.isUndef = false := by revert hv; cases v.isUndef <;> simp
      simp only [List.filter_cons, hv2, Bool.not_false, if_true]
      simp only [eqFold, hv2, Bool.false_eq_true, if_false]
      rw [eqFold_filter nt ot rest]

/-- C7: under the positional-mark style, eq of the pairs a maps-to 1 and
b maps-to None renders the parenthesized conjunction with one bound
placeholder and stored parameters holding just the 1; in general a None value
emits the IS NULL test binding nothing, a normal value emits a bound
equality, pairs with the UNDEFINED sentinel are dropped before the AND-join,
and all-suppressed pairs collapse to EMPTY with the accumulator unchanged. -/
theorem C7_eq_rendering :
    QueryParams.eq (freshQ .qmark .base) [(("a"), .int 1), (("b"), .none)] =
      ("(a = ? AND b IS NULL)",
        { style := .qmark, dialect := .base, list := [.int 1], dict := [], count := 1 })
    ∧ (∀ (q : QueryParams) (f : String), QueryParams.eq q [(f, .none)] = (f ++ " IS NULL", q))
    ∧ (∀ (q : QueryParams) (f : String) (v : Val), v.isUndef = false → v.isNone = false →
        QueryParams.eq q [(f, v)] = QueryParams.compile q (f ++ " = \x7b\x7d") [v])
    ∧ (∀ (q : QueryParams) (nt ot : String) (pairs : List (String × Val)),
        eqFold nt ot q pairs = eqFold nt ot q (pairs.filter (fun p => !p.2.isUndef)))
    ∧ (∀ (q : QueryParams) (pairs : List (String × Val)),
        (∀ p ∈ pairs, p.2.isUndef = true) → QueryParams.eq q pairs = (EMPTY, q)) := by
  refine ⟨rfl, eq_single_none, eq_single_val, fun q nt ot pairs => eqFold_filter nt ot pairs q, ?_⟩
  intro q pairs h
  show (AND (eqFold _ _ q pairs).1, (eqFold _ _ q pairs).2) = (EMPTY, q)
  rw [eqFold_all_undef _ _ q pairs h]
  rfl

/-- Witness for C7 at concrete inputs. -/
theorem C7_eq_rendering_witness :
    QueryParams.eq (freshQ .qmark .base) [(("name"), .str ("bob"))] =
      QueryParams.compile (freshQ .qmark .base) ("name = \x7b\x7d") [.str ("bob")]
    ∧ QueryParams.eq (freshQ .qmark .base) [(("x"), .undef)] = (EMPTY, freshQ .qmark .base) := by
  constructor
  · exact C7_eq_rendering.2.2.1 (freshQ .qmark .base) ("name") (.str ("bob")) rfl rfl
  · exact C7_eq_rendering.2.2.2.2 (freshQ .qmark .base) [(("x"), .undef)] (by decide)

/- Template normalizations for in_range. -/

theorem tmpl_ge (f : String) : f ++ " " ++ (">=") ++ " \x7b\x7d" = f ++ " >= \x7b\x7d" := by
  apply String.ext
  simp only [String.data_append, List.append_assoc]
  congr 1

theorem tmpl_lt (f : String) : f ++ " " ++ ("<") ++ " \x7b\x7d" = f ++ " < \x7b\x7d" := by
  apply String.ext
  simp only [String.data_append, List.append_assoc]
  congr 1

/-- C8: in_range binds each bound independently, lower as a greater-or-equal
comparison and upper as a strict less-than; an UNDEFINED bound is omitted
entirely, so a suppressed lower bound leaves just the upper comparison (the
concrete scenario yields the upper fragment with the single stored value), a
lower-only range yields just the lower comparison, and both bounds UNDEFINED
yield EMPTY with the accumulator unchanged. -/
theorem C8_in_range_bounds :
    QueryParams.in_range (freshQ .qmark .base) ("d") .undef (.str ("2020-01-01")) =
      ("d < ?",
        { style := .qmark, dialect := .base, list := [.str ("2020-01-01")], dict := [],
          count := 1 })
    ∧ (∀ (q : QueryParams) (f : String) (l : Val), l.isUndef = false →
        QueryParams.in_range q f l .undef = QueryParams.compile q (f ++ " >= \x7b\x7d") [l])
    ∧ (∀ (q : QueryParams) (f : String) (r : Val), r.isUndef = false →
        QueryParams.in_range q f .undef r = QueryParams.compile q (f ++ " < \x7b\x7d") [r])
    ∧ (∀ (q : QueryParams) (f : String),
        QueryParams.in_range q f .undef .undef = (EMPTY, q))
    ∧ (∀ (q : QueryParams) (f : String) (l r : Val), l.isUndef = false → r.isUndef = false →
        QueryParams.in_range q f l r =
          (AND [(QueryParams.compile q (f ++ " >= \x7b\x7d") [l]).1,
                (QueryParams.compile (QueryParams.compile q (f ++ " >= \x7b\x7d") [l]).2
                  (f ++ " < \x7b\x7d") [r]).1],
           (QueryParams.compile (QueryParams.compile q (f ++ " >= \x7b\x7d") [l]).2
             (f ++ " < \x7b\x7d") [r]).2)
          ∧ AND [(QueryParams.compile q (f ++ " >= \x7b\x7d") [l]).1,
                 (QueryParams.compile (QueryParams.compile q (f ++ " >= \x7b\x7d") [l]).2
                   (f ++ " < \x7b\x7d") [r]).1]
            = ("(") ++ (QueryParams.compile q (f ++ " >= \x7b\x7d") [l]).1 ++ " AND " ++
                (QueryParams.compile (QueryParams.compile q (f ++ " >= \x7b\x7d") [l]).2
                  (f ++ " < \x7b\x7d") [r]).1 ++ ")") := by
  refine ⟨rfl, ?_, ?_, fun _ _ => rfl, ?_⟩
  · intro q f l hu
    simp only [QueryParams.in_range, _in_range, hu, isUndef_undef, Bool.not_false,
      Bool.not_true, Bool.false_eq_true, if_false, if_true, tmpl_ge, tmpl_lt]
    rw [AND_pair_left _ (compile_fst_ne_empty _ _ _
      (tmpl_robust f (" >= \x7b\x7d") '>' (by decide) (by decide) (by decide)))]
  · intro q f r hu
    simp only [QueryParams.in_range, _in_range, hu, isUndef_undef, Bool.not_false,
      Bool.not_true, Bool.false_eq_true, if_false, if_true, tmpl_ge, tmpl_lt]
    rw [AND_pair_right _ (compile_fst_ne_empty _ _ _
      (tmpl_robust f (" < \x7b\x7d") '<' (by decide) (by decide) (by decide)))]
  · intro q f l r hul hur
    simp only [QueryParams.in_range, _in_range, hul, hur, Bool.not_false, if_true,
      tmpl_ge, tmpl_lt]
    refine ⟨by trivial, AND_pair_both _ _ ?_ ?_⟩
    · exact compile_fst_ne_empty _ _ _
        (tmpl_robust f (" >= \x7b\x7d") '>' (by decide) (by decide) (by decide))
    · exact compile_fst_ne_empty _ _ _
        (tmpl_robust f (" < \x7b\x7d") '<' (by decide) (by decide) (by decide))

/-- Witness for C8 at concrete inputs. -/
theorem C8_in_range_bounds_witness :
    QueryParams.in_range (freshQ .qmark .base) ("d") (.str ("2023-01-01")) .undef =
      ("d >= ?",
        { style := .qmark, dialect := .base, list := [.str ("2023-01-01")], dict := [],
          count := 1 })
    ∧ QueryParams.in_range (freshQ .qmark .base) ("d") .undef .undef =
      (EMPTY, freshQ .qmark .base) := by
  constructor
  · exact (C8_in_range_bounds.2.1 (freshQ .qmark .base) ("d")
      (.str ("2023-01-01")) rfl).trans (by rfl)
  · exact C8_in_range_bounds.2.2.2.1 (freshQ .qmark .base) ("d")

/- Helper lemmas for the accounting claim. -/

theorem dictUpdate_fresh (d : List (String × Val)) (k : String) (v : Val)
    (h : ∀ kv ∈ d, kv.1 ≠ k) : dictUpdate d k v = d ++ [(k, v)] := by
  have hany : d.any (fun kv => kv.1 == k) = false := by
    rw [List.any_eq_false]
    intro kv hkv
    simp [h kv hkv]
  simp [dictUpdate, hany]

theorem foldl_dictUpdate_fresh :
    ∀ (new d : List (String × Val)),
      (∀ kv ∈ new, ∀ kv2 ∈ d, kv2.1 ≠ kv.1) → (new.map (fun kv => kv.1)).Nodup →
      List.foldl (fun acc kv => dictUpdate acc kv.1 kv.2) d new = d ++ new
  | [], d, _, _ => by simp
  | kv :: rest, d, hfresh, hnodup => by
    rw [List.map_cons, List.nodup_cons] at hnodup
    rw [List.foldl_cons,
      dictUpdate_fresh d kv.1 kv.2 (fun kv2 h2 => hfresh kv (by simp) kv2 h2)]
    rw [foldl_dictUpdate_fresh rest (d ++ [(kv.1, kv.2)]) ?_ hnodup.2]
    · simp
    · intro kv2 h2 kv3 h3
      rcases List.mem_append.mp h3 with h | h
      · exact hfresh kv2 (by simp [h2]) kv3 h
      · have hk3 : kv3 = (kv.1, kv.2) := by simpa using h
        subst hk3
        show kv.1 ≠ kv2.1
        intro heq
        exact hnodup.1 (heq ▸ List.mem_map_of_mem (fun p => p.1) h2)

theorem pKey_shift_inj (c : Nat) : Function.Injective (fun i => pKey (c + i)) := by
  intro a b h
  have := pKey_inj h
  omega

theorem pKeys_nodup (c k : Nat) : (((List.range k).map (fun i => pKey (c + i))).Nodup) :=
  (List.nodup_range k).map (pKey_shift_inj c)

theorem pKeys_split (c k m : Nat) :
    (List.range (k + m)).map (fun i => pKey (c + i)) =
      (List.range k).map (fun i => pKey (c + i)) ++
        (List.range m).map (fun i => pKey (c + k + i)) := by
  rw [List.range_add, List.map_append, List.map_map]
  congr 1
  apply List.map_congr_left
  intro i _
  show pKey (c + (k + i)) = pKey (c + k + i)
  congr 1
  omega

theorem compile_spec_list (q : QueryParams) (e : String) (ps : List Val)
    (h : usesDict q.style = false) :
    QueryParams.compile q e ps =
      (pyFormat e (specCallTokens q.style q.count ps.length),
       { q with count := q.count + ps.length, list := q.list ++ ps }) := by
  obtain ⟨st, d, l, dc, c⟩ := q
  cases st
  · simp only [QueryParams.compile, QMarkQueryParams.compile, ListQueryParams.add]
    congr 2
    simp [specCallTokens, specTokenOf, List.map_const']
  · simp only [QueryParams.compile, NumericQueryParams.compile, ListQueryParams.add]
    congr 2
    apply List.map_congr_left
    intro i _
    show (":") ++ natStr (c + 1 + i) = (":") ++ natStr (c + i + 1)
    congr 2
    omega
  · simp only [QueryParams.compile, FormatQueryParams.compile, ListQueryParams.add]
    congr 2
    simp [specCallTokens, specTokenOf, List.map_const']
  · simp [usesDict] at h
  · simp [usesDict] at h

theorem compile_spec_dict (q : QueryParams) (e : String) (ps : List Val)
    (h : usesDict q.style = true) (hg : goodDict q) :
    QueryParams.compile q e ps =
      (pyFormat e (specCallTokens q.style q.count ps.length),
       { q with count := q.count + ps.length,
                dict := q.dict ++
                  (((List.range ps.length).map (fun i => pKey (q.count + i))).zip ps) }) := by
  have hfold :
      List.foldl (fun acc kv => dictUpdate acc kv.1 kv.2) q.dict
          ((((List.range ps.length).map (fun i => pKey (q.count + i))).zip ps)) =
        q.dict ++ (((List.range ps.length).map (fun i => pKey (q.count + i))).zip ps) := by
    apply foldl_dictUpdate_fresh
    · intro kv hkv kv2 h2
      obtain ⟨a, b⟩ := kv
      have hmem := (List.of_mem_zip hkv).1
      obtain ⟨i, _, hai⟩ := List.mem_map.mp hmem
      obtain ⟨i2, hi2, hk2⟩ := hg kv2 h2
      rw [hk2]
      show pKey i2 ≠ a
      rw [← hai]
      intro heq
      have := pKey_inj heq
      omega
    · have hlen : ((List.range ps.length).map (fun i => pKey (q.count + i))).length
          ≤ ps.length := by simp
      rw [List.map_fst_zip _ _ hlen]
      exact pKeys_nodup q.count ps.length
  obtain ⟨st, d, l, dc, c⟩ := q
  simp only at hfold
  cases st
  · simp [usesDict] at h
  · simp [usesDict] at h
  · simp [usesDict] at h
  · simp only [QueryParams.compile, NamedQueryParams.compile, DictQueryParams.add]
    rw [show (fun i => ("p") ++ natStr (c + i)) = (fun i => pKey (c + i)) from rfl]
    rw [hfold]
    congr 1
    simp only [specCallTokens, specTokenOf, List.map_map]
    congr 1
  · simp only [QueryParams.compile, PyFormatQueryParams.compile, DictQueryParams.add]
    rw [show (fun i => ("p") ++ natStr (c + i)) = (fun i => pKey (c + i)) from rfl]
    rw [hfold]
    congr 1
    simp only [specCallTokens, specTokenOf, List.map_map]
    congr 1

theorem flatMap_length_totalLen :
    ∀ calls : List (String × List Val),
      (calls.flatMap (fun cl => cl.2)).length = totalLen calls
  | [] => rfl
  | cl :: rest => by
    simp [List.flatMap_cons, totalLen, flatMap_length_totalLen rest]

theorem goodDict_compile (q : QueryParams) (e : String) (ps : List Val) (hg : goodDict q) :
    goodDict (QueryParams.compile q e ps).2 := by
  by_cases h : usesDict q.style = true
  · rw [compile_spec_dict q e ps h hg]
    intro kv hkv
    rcases List.mem_append.mp hkv with hk | hk
    · obtain ⟨i, hi, hke⟩ := hg kv hk
      exact ⟨i, by simp only []; omega, hke⟩
    · obtain ⟨a, b⟩ := kv
      have hmem := (List.of_mem_zip hk).1
      obtain ⟨i, hi, hai⟩ := List.mem_map.mp hmem
      refine ⟨q.count + i, ?_, hai.symm⟩
      have := List.mem_range.mp hi
      simp only []
      omega
  · have h2 : usesDict q.style = false := by revert h; cases usesDict q.style <;> simp
    rw [compile_spec_list q e ps h2]
    intro kv hkv
    obtain ⟨i, hi, hke⟩ := hg kv hkv
    exact ⟨i, by simp only []; omega, hke⟩

theorem runCompiles_spec_list :
    ∀ (calls : List (String × List Val)) (q : QueryParams), usesDict q.style = false →
      runCompiles q calls =
        (specFrags q.style q.count calls,
         { q with count := q.count + totalLen calls,
                  list := q.list ++ calls.flatMap (fun cl => cl.2) })
  | [], q, _ => by
    obtain ⟨st, d, l, dc, c⟩ := q
    simp [runCompiles, specFrags, totalLen]
  | (e, ps) :: rest, q, h => by
    have hstep := compile_spec_list q e ps h
    have hrec := runCompiles_spec_list rest
      ({ q with count := q.count + ps.length, list := q.list ++ ps }) h
    simp only [runCompiles, hstep, hrec]
    obtain ⟨st, d, l, dc, c⟩ := q
    simp [specFrags, totalLen, Nat.add_assoc, List.append_assoc, List.flatMap_cons]

theorem runCompiles_spec_dict :
    ∀ (calls : List (String × List Val)) (q : QueryParams), usesDict q.style = true →
      goodDict q →
      runCompiles q calls =
        (specFrags q.style q.count calls,
         { q with count := q.count + totalLen calls,
                  dict := q.dict ++
                    (((List.range (totalLen calls)).map (fun i => pKey (q.count + i))).zip
                      (calls.flatMap (fun cl => cl.2))) })
  | [], q, _, _ => by
    obtain ⟨st, d, l, dc, c⟩ := q
    simp [runCompiles, specFrags, totalLen]
  | (e, ps) :: rest, q, h, hg => by
    have hstep := compile_spec_dict q e ps h hg
    have hg2 : goodDict
        { q with
          count := q.count + ps.length,
          dict := q.dict ++
            (((List.range ps.length).map (fun i => pKey (q.count + i))).zip ps) } := by
      have hgc := goodDict_compile q e ps hg
      rwa [hstep] at hgc
    have hrec := runCompiles_spec_dict rest
      { q with
        count := q.count + ps.length,
        dict := q.dict ++
          (((List.range ps.length).map (fun i => pKey (q.count + i))).zip ps) } h hg2
    simp only [runCompiles, hstep, hrec]
    have hzip : (((List.range (ps.length + totalLen rest)).map
          (fun i => pKey (q.count + i))).zip (ps ++ rest.flatMap (fun cl => cl.2))) =
        ((((List.range ps.length).map (fun i => pKey (q.count + i))).zip ps) ++
          (((List.range (totalLen rest)).map (fun i => pKey (q.count + ps.length + i))).zip
            (rest.flatMap (fun cl => cl.2)))) := by
      rw [pKeys_split q.count ps.length (totalLen rest), List.zip_append (by simp)]
    obtain ⟨st, d, l, dc, c⟩ := q
    simp only at hzip
    simp only [totalLen, List.map_cons, List.sum_cons, Nat.add_assoc] at hzip
    simp [specFrags, totalLen, Nat.add_assoc, List.append_assoc, List.flatMap_cons]
    exact hzip.symm

theorem specTokenOf_inj (st : Style)
    (h : st = .numeric ∨ st = .named ∨ st = .pyformat) :
    Function.Injective (specTokenOf st) := by
  intro a b hab
  rcases h with h | h | h
  · subst h
    simp only [specTokenOf] at hab
    have hd := congrArg String.data hab
    rw [String.data_append, String.data_append] at hd
    have h2 := List.append_cancel_left hd
    have := natStr_inj (String.ext h2)
    omega
  · subst h
    simp only [specTokenOf] at hab
    have hd := congrArg String.data hab
    rw [String.data_append, String.data_append] at hd
    exact natStr_inj (String.ext (List.append_cancel_left hd))
  · subst h
    simp only [specTokenOf] at hab
    have hd := congrArg String.data hab
    rw [String.data_append, String.data_append, String.data_append, String.data_append] at hd
    exact natStr_inj (String.ext (List.append_cancel_left (List.append_cancel_right hd)))

/-- C2: for every placeholder style and every sequence of successful bind
calls, the rendered fragments are exactly the templates formatted with the
tokens of consecutive disjoint counter blocks (the token at global index i
standing for the i-th stored value in insertion order), the final counter
equals the sum of the per-call value counts and only ever grows (never
resetting), the stored list is the in-order concatenation of all bound
values, the stored mapping pairs the synthetic key of each global index with
the value inserted at that index, and the generated keys and the rendered
tokens of the numbering and key-generating styles are globally distinct. -/
theorem C2_bind_accounting :
    (∀ (st : Style) (d : DialectT) (calls : List (String × List Val)),
        usesDict st = false →
        runCompiles (freshQ st d) calls =
          (specFrags st 0 calls,
           { style := st, dialect := d, list := calls.flatMap (fun cl => cl.2), dict := [],
             count := totalLen calls }))
    ∧ (∀ (st : Style) (d : DialectT) (calls : List (String × List Val)),
        usesDict st = true →
        runCompiles (freshQ st d) calls =
          (specFrags st 0 calls,
           { style := st, dialect := d, list := [],
             dict := ((List.range (totalLen calls)).map pKey).zip
                       (calls.flatMap (fun cl => cl.2)),
             count := totalLen calls }))
    ∧ (∀ calls : List (String × List Val),
        (calls.flatMap (fun cl => cl.2)).length = totalLen calls)
    ∧ (∀ (q : QueryParams) (e : String) (ps : List Val),
        (QueryParams.compile q e ps).2.count = q.count + ps.length
        ∧ (QueryParams.compile q e ps).2.style = q.style
        ∧ (QueryParams.compile q e ps).2.dialect = q.dialect)
    ∧ (∀ n : Nat, ((List.range n).map pKey).Nodup)
    ∧ (∀ st : Style, st = .numeric ∨ st = .named ∨ st = .pyformat →
        ∀ n : Nat, ((List.range n).map (specTokenOf st)).Nodup) := by
  refine ⟨?_, ?_, flatMap_length_totalLen, ?_, ?_, ?_⟩
  · intro st d calls h
    rw [runCompiles_spec_list calls (freshQ st d) h]
    simp [freshQ]
  · intro st d calls h
    have hg : goodDict (freshQ st d) := by
      intro kv hkv
      simp [freshQ] at hkv
    rw [runCompiles_spec_dict calls (freshQ st d) h hg]
    simp [freshQ]
  · intro q e ps
    obtain ⟨st, d, l, dc, c⟩ := q
    cases st <;>
      simp [QueryParams.compile, QMarkQueryParams.compile, NumericQueryParams.compile,
        FormatQueryParams.compile, NamedQueryParams.compile, PyFormatQueryParams.compile,
        ListQueryParams.add, DictQueryParams.add]
  · intro n
    exact (List.nodup_range n).map pKey_inj
  · intro st h n
    exact (List.nodup_range n).map (specTokenOf_inj st h)

/-- Witness for C2: a two-call run in the named style stores three values
under the keys p0, p1, p2 in insertion order with the matching colon tokens
in the rendered text, and a run in the qmark style concatenates the values. -/
theorem C2_bind_accounting_witness :
    runCompiles (freshQ .named .base)
        [(("a = \x7b\x7d"), [.int 1]), (("b = \x7b\x7d AND c = \x7b\x7d"), [.int 2, .int 3])] =
      ([("a = :p0"), ("b = :p1 AND c = :p2")],
       { style := .named, dialect := .base, list := [],
         dict := [(("p0"), .int 1), (("p1"), .int 2), (("p2"), .int 3)], count := 3 })
    ∧ runCompiles (freshQ .qmark .base)
        [(("a = \x7b\x7d"), [.int 1]), (("b = \x7b\x7d AND c = \x7b\x7d"), [.int 2, .int 3])] =
      ([("a = ?"), ("b = ? AND c = ?")],
       { style := .qmark, dialect := .base, list := [.int 1, .int 2, .int 3], dict := [],
         count := 3 })
    ∧ ((List.range 3).map (specTokenOf .named)).Nodup := by
  refine ⟨?_, ?_, ?_⟩
  · exact (C2_bind_accounting.2.1 .named .base
      [(("a = \x7b\x7d"), [.int 1]), (("b = \x7b\x7d AND c = \x7b\x7d"), [.int 2, .int 3])]
      rfl).trans (by rfl)
  · exact (C2_bind_accounting.1 .qmark .base
      [(("a = \x7b\x7d"), [.int 1]), (("b = \x7b\x7d AND c = \x7b\x7d"), [.int 2, .int 3])]
      rfl).trans (by rfl)
  · exact C2_bind_accounting.2.2.2.2.2 .named (Or.inr (Or.inl rfl)) 3

/-- C10: rendering is deterministic: two accumulators agreeing on style,
dialect, counter and storage produce identical fragment strings and identical
final storage for any operation sequence — the five state components are the
only state any operation reads, there being no other state in the model at
all (the embedding is a pure function of them). -/
theorem C10_deterministic_rendering :
    ∀ (q1 q2 : QueryParams) (ops : List Op),
      q1.style = q2.style → q1.dialect = q2.dialect → q1.count = q2.count →
      q1.list = q2.list → q1.dict = q2.dict →
      runOps q1 ops = runOps q2 ops := by
  intro q1 q2 ops h1 h2 h3 h4 h5
  have heq : q1 = q2 := by
    obtain ⟨s1, d1, l1, dc1, c1⟩ := q1
    obtain ⟨s2, d2, l2, dc2, c2⟩ := q2
    simp only at h1 h2 h3 h4 h5
    rw [h1, h2, h3, h4, h5]
  rw [heq]

/-- Witness for C10: two syntactically different but componentwise equal
fresh accumulators run the same operation sequence to the same outcome. -/
theorem C10_deterministic_rendering_witness :
    runOps (freshQ .qmark .sqlite)
        [.truediv (.int 1), .IN ("f") (.list [.int 2, .int 3]), .eq [(("a"), .none)]] =
      runOps { style := .qmark, dialect := .sqlite, list := [], dict := [], count := 0 }
        [.truediv (.int 1), .IN ("f") (.list [.int 2, .int 3]), .eq [(("a"), .none)]] :=
  C10_deterministic_rendering (freshQ .qmark .sqlite)
    { style := .qmark, dialect := .sqlite, list := [], dict := [], count := 0 }
    [.truediv (.int 1), .IN ("f") (.list [.int 2, .int 3]), .eq [(("a"), .none)]]
    rfl rfl rfl rfl rfl

end Sqlbind
